import Mathlib

/-!
Verification of the Express backend in `server/index.js` of the book1561
ebook storefront. The definitions below are a shallow embedding of the
server's file-provenance resolution logic: the fuzzy Backblaze B2 name
matcher, the on-demand ZIP assembly of multi-part books, the signed-URL /
byte-range PDF proxy, the cover fallback chain, the admin-password
middleware, the multer upload limits and the book-creation record shape.
JavaScript truthiness on optional strings is modelled explicitly, since the
source relies on it (`a || b`, `if (x)` on strings).
-/

namespace Book1561

/-! ## JavaScript-value helpers -/

/-- Truthiness of a JS value that is either a string or absent
(`undefined`/`null` is `none`); the empty string is falsy. -/
def jsTruthy : Option String → Bool
  | none => false
  | some s => !s.isEmpty

/-- The JS expression `x || d` for a string-or-absent `x` and string default
`d`. -/
def jsOr (x : Option String) (d : String) : String :=
  match x with
  | some s => if s.isEmpty then d else s
  | none => d

/-- The JS expression `a || b` where both operands are string-or-absent. -/
def jsOrOpt (a b : Option String) : Option String :=
  if jsTruthy a then a else b

/-- `t` occurs as a contiguous substring of `s` (character lists); this is
JS `s.includes(t)`. -/
def listContainsSub : List Char → List Char → Bool
  | s, t =>
    match s with
    | [] => t.isEmpty
    | c :: rest => t.isPrefixOf (c :: rest) || listContainsSub rest t

/-- JS `s.includes(t)` on strings. -/
def strIncludes (s t : String) : Bool :=
  listContainsSub s.toList t.toList

/-- JS `s.startsWith(p)` on strings (computed on the character lists). -/
def strStartsWith (s p : String) : Bool :=
  p.toList.isPrefixOf s.toList

/-! ## Data model of the server -/

/-- One file of the Backblaze B2 bucket as returned by `b2.listFileNames`. -/
structure B2File where
  fileName : String
  fileId : String
  deriving Repr, DecidableEq

/-- One entry of a book's `pdfParts` array. -/
structure PdfPart where
  partNumber : Nat
  b2FileName : Option String
  fileName : Option String
  deriving Repr, DecidableEq

/-- The fields of a stored book record that the proxy endpoints consult.
`b2FileId` is the cached Backblaze file id the second server implementation
writes back after discovering a file by listing. -/
structure BookRec where
  id : String
  title : Option String
  pdfParts : Option (List PdfPart)
  b2FileName : Option String
  fileName : Option String
  cloudinaryCoverUrl : Option String
  coverImage : Option String
  b2CoverFileName : Option String
  b2FileId : Option String := none
  deriving Repr, DecidableEq

/-! ## Fuzzy B2 name matching (download ZIP branch and debug endpoint)

`listResponse.data.files.find(f => f.fileName === part.b2FileName ||
f.fileName.includes(part.b2FileName) || part.b2FileName.includes(f.fileName))`
-/

/-- A listed file matches the stored name exactly, contains it, or is
contained in it. -/
def fuzzyNameMatch (stored : String) (f : B2File) : Bool :=
  f.fileName == stored || strIncludes f.fileName stored || strIncludes stored f.fileName

/-- `Array.prototype.find` over the listing with the fuzzy predicate: the
first listed file that matches. -/
def findB2File (stored : String) (files : List B2File) : Option B2File :=
  files.find? (fuzzyNameMatch stored)

/-! ## Sorting the parts (`.sort((a, b) => a.partNumber - b.partNumber)`) -/

/-- Stable insertion of a part into a list sorted by `partNumber`. -/
def insertPart (p : PdfPart) : List PdfPart → List PdfPart
  | [] => [p]
  | q :: qs => if p.partNumber ≤ q.partNumber then p :: q :: qs else q :: insertPart p qs

/-- Stable sort of the parts by ascending `partNumber`, the embedding of the
JS numeric-comparator sort. -/
def sortParts : List PdfPart → List PdfPart
  | [] => []
  | p :: ps => insertPart p (sortParts ps)

/-- The parts list is in ascending `partNumber` order. -/
def PartsAscending (l : List PdfPart) : Prop :=
  List.Pairwise (fun a b => a.partNumber ≤ b.partNumber) l

/-! ## The download endpoint: `GET /api/books/:id/download`

The Backblaze side is modelled as an environment: the bucket listing the
`b2.listFileNames` call returns (one page, `maxFileCount: 10000`), the
content `b2.downloadFileById` yields per file id (`none` models a download
that throws or returns no data, which the per-part `catch` turns into a
skip), and whether `b2.authorize()` succeeds. -/

/-- Environment describing the Backblaze B2 service for ZIP assembly. -/
structure B2Env where
  files : List B2File
  fetch : String → Option (List Nat)
  authOk : Bool

/-- Resolution of one `pdfParts` entry in the ZIP branch: the part is
fetched only when its `b2FileName` is truthy and B2 credentials exist; the
listing is fuzzy-matched and the matched file is downloaded by id. `none`
is a part whose look-up or download failed (the loop skips it). -/
def resolvePart (env : B2Env) (hasB2 : Bool) (p : PdfPart) : Option (List Nat) :=
  if jsTruthy p.b2FileName && hasB2 then
    match findB2File (jsOr p.b2FileName "") env.files with
    | some f => env.fetch f.fileId
    | none => none
  else none

/-- One entry appended to the ZIP archive. -/
structure ZipEntry where
  name : String
  content : List Nat
  deriving Repr, DecidableEq

/-- `Part_${part.partNumber}_${book.title || 'book'}.pdf` -/
def partEntryName (title : Option String) (p : PdfPart) : String :=
  "Part_" ++ toString p.partNumber ++ "_" ++ jsOr title "book" ++ ".pdf"

/-- The entries of the assembled ZIP: the parts in ascending `partNumber`
order, keeping exactly those whose PDF could be fetched from B2. -/
def zipEntriesFor (env : B2Env) (hasB2 : Bool) (title : Option String)
    (parts : List PdfPart) : List ZipEntry :=
  (sortParts parts).filterMap fun p =>
    match resolvePart env hasB2 p with
    | some data => some ⟨partEntryName title p, data⟩
    | none => none

/-- Response of the download endpoint. The single-file branch is embedded up
to its local checks; the actual proxying it then performs is the same
signed-URL machinery as `GET /api/books/:id/pdf`, modelled separately. -/
inductive DownloadOut where
  /-- 404 `Book not found`. -/
  | bookNotFound
  /-- 200 with `Content-Type: application/zip` and the archive entries. -/
  | zipOk (entries : List ZipEntry)
  /-- 500 `Failed to create ZIP file` (B2 authorization threw inside the
  ZIP branch before any part was processed). -/
  | zipFailed
  /-- 400 `Book file not found` (no truthy `b2FileName || fileName`). -/
  | noFile
  /-- 500 `Backblaze B2 is not configured`. -/
  | noB2
  /-- The single-file proxy branch, reached with this resolved file name. -/
  | singleProxy (fileName : String)
  deriving Repr, DecidableEq

/-- `GET /api/books/:id/download`. Books with a non-empty `pdfParts` array
get an on-demand ZIP; otherwise the single `b2FileName || fileName` is
proxied. -/
def downloadEndpoint (books : List BookRec) (id : String) (hasB2 : Bool)
    (env : B2Env) : DownloadOut :=
  match books.find? (fun b => b.id == id) with
  | none => .bookNotFound
  | some book =>
    match book.pdfParts with
    | some parts =>
      if !parts.isEmpty then
        if hasB2 && !env.authOk then .zipFailed
        else .zipOk (zipEntriesFor env hasB2 book.title parts)
      else
        let fn := jsOrOpt book.b2FileName book.fileName
        if !jsTruthy fn then .noFile
        else if !hasB2 then .noB2
        else .singleProxy (jsOr fn "")
    | none =>
      let fn := jsOrOpt book.b2FileName book.fileName
      if !jsTruthy fn then .noFile
      else if !hasB2 then .noB2
      else .singleProxy (jsOr fn "")

/-- The `Content-Type` header the download endpoint sets on its response
(`none` when the code leaves it to `res.json`'s default). -/
def downloadContentType : DownloadOut → Option String
  | .zipOk _ => some "application/zip"
  | .singleProxy _ => some "application/pdf"
  | _ => none

/-! ## B2 connection state and file-id resolution (`ensureB2Authorized` and
the `listFileNames` fallback of the download route)

The module keeps one boolean `b2Authorized` (with the auth data) as its
whole B2 connection state; there is no cache of file ids. Remote calls are
recorded as an operation trace. -/

/-- A remote Backblaze API call the server performs. -/
inductive B2Op where
  | authorize
  | listFiles (startName : String)
  | downloadById (fileId : String)
  deriving Repr, DecidableEq

/-- `ensureB2Authorized()`: a no-op when `b2Authorized` is already set,
otherwise one `b2.authorize()` call that either caches the authorization
(`some true`) or throws (`none`). -/
def ensureB2Authorized (authSucceeds : Bool) (b2Authorized : Bool) :
    List B2Op × Option Bool :=
  if b2Authorized then ([], some true)
  else ([.authorize], if authSucceeds then some true else none)

/-- The exact-name file resolution of the download fallback
(`listFileNames` with `startFileName: fileName`, then
`find(f => f.fileName === fileName)`), threading the only state the module
keeps, the `b2Authorized` flag. Returns the operation trace, the new flag
and the file found, `none` when authorization threw or nothing matched. -/
def resolveFileByName (authSucceeds : Bool) (files : List B2File)
    (fileName : String) (b2Authorized : Bool) :
    List B2Op × Bool × Option B2File :=
  match ensureB2Authorized authSucceeds b2Authorized with
  | (ops, none) => (ops, false, none)
  | (ops, some _) =>
    (ops ++ [.listFiles fileName], true,
      files.find? (fun f => f.fileName == fileName))

/-! ## The cached-file-id PDF lookup of the second server implementation

The repository ships a second full server (same Express app, older
revision) whose `GET /api/books/:id/pdf` route locates the PDF with a
cached file id: when the book record's `b2FileId` is truthy the bucket is
not listed at all; otherwise one `listFileNames` over the whole bucket is
made and the file is matched by exact name, case-insensitive name,
base-name (the name with its first dash-separated segment stripped), or
partial containment. On a match the discovered `fileId` (and, on a name
mismatch, the corrected name) is written back onto the book record at the
index found by `findIndex` and persisted with `saveBooks`, so later
lookups for the same file take the cached-id path. -/

/-- JS `s.endsWith(p)`. -/
def strEndsWith (s p : String) : Bool :=
  p.toList.isSuffixOf s.toList

/-- JS `s.toLowerCase()` (character-wise). -/
def strToLower (s : String) : String :=
  ⟨s.data.map Char.toLower⟩

/-- JS `String.prototype.split` at a separator character. -/
def splitOnChar (sep : Char) : List Char → List (List Char)
  | [] => [[]]
  | c :: rest =>
    match splitOnChar sep rest with
    | [] => [[]]
    | h :: t => if c = sep then [] :: h :: t else (c :: h) :: t

/-- `fileName.split('-').slice(1).join('-')`: the name without its first
dash-separated segment. -/
def jsBaseName (s : String) : String :=
  ⟨List.intercalate ['-'] ((splitOnChar '-' s.data).drop 1)⟩

/-- The staged matcher of the cached-id PDF route: exact name, then
case-insensitive name, then base-name, then partial containment. -/
def findPdfFileStaged (fileName : String) (allFiles : List B2File) :
    Option B2File :=
  match allFiles.find? (fun f => f.fileName == fileName) with
  | some f => some f
  | none =>
    match allFiles.find?
        (fun f => strToLower f.fileName == strToLower fileName) with
    | some f => some f
    | none =>
      match allFiles.find? (fun f =>
          jsBaseName f.fileName == jsBaseName fileName ||
          strEndsWith f.fileName (jsBaseName fileName)) with
      | some f => some f
      | none =>
        allFiles.find? (fun f =>
          strIncludes f.fileName fileName || strIncludes fileName f.fileName ||
          strEndsWith f.fileName fileName || strEndsWith fileName f.fileName)

/-- JS `Array.prototype.findIndex` (a `-1` result is `none`). -/
def jsFindIndex {α : Type} (p : α → Bool) : List α → Option Nat
  | [] => none
  | a :: l => if p a then some 0 else (jsFindIndex p l).map (· + 1)

/-- The write-back `{ ...books[bookIndex] }` with `b2FileId` set to the
discovered id and, when the listed name differs from the stored one, the
corrected `b2FileName`/`fileName`. -/
def cacheUpdate (b : BookRec) (f : B2File) (fileName : String) : BookRec :=
  let b1 := { b with b2FileId := some f.fileId }
  if f.fileName ≠ fileName then
    { b1 with b2FileName := some f.fileName, fileName := some f.fileName }
  else b1

/-- Outcome of the cached-id lookup: the remote calls made, the (possibly
updated) books array, whether `saveBooks` persisted it, and the file id
used for `downloadFileById` (`none` is the not-found throw). -/
structure CachedLookup where
  ops : List B2Op
  books : List BookRec
  savedBooks : Bool
  fileId : Option String

/-- The B2 section of the cached-id PDF route (entered after
`ensureB2Authorized` succeeded, with `fileName = b2FileName || fileName`
already resolved and truthy): use the cached `b2FileId` when truthy,
otherwise list the whole bucket (`startFileName: ''`), match in stages and
cache the discovered id on the book record. -/
def lookupPdfWithCache (books : List BookRec) (id : String) (book : BookRec)
    (fileName : String) (allFiles : List B2File) : CachedLookup :=
  if jsTruthy book.b2FileId then
    { ops := [], books := books, savedBooks := false, fileId := book.b2FileId }
  else
    match findPdfFileStaged fileName allFiles with
    | some f =>
      match jsFindIndex (fun b => b.id == id) books with
      | some ix =>
        { ops := [.listFiles ""]
          books := books.set ix (cacheUpdate (books.getD ix book) f fileName)
          savedBooks := true
          fileId := some f.fileId }
      | none =>
        { ops := [.listFiles ""], books := books, savedBooks := false,
          fileId := some f.fileId }
    | none =>
      { ops := [.listFiles ""], books := books, savedBooks := false,
        fileId := none }

/-! ## The PDF proxy: `GET /api/books/:id/pdf`

The route first tries a signed download URL (built from a download
authorization with empty prefix) and streams it; the axios call for that
attempt sends no headers at all, in particular no `Range`. Only the
fallback path, entered when any step of the signed-URL attempt throws,
issues `b2_download_file_by_id` with the client's `Range` header attached
and mirrors the upstream status and headers. -/

/-- The headers of a Backblaze HTTP response the proxy may mirror. -/
structure B2HttpResp where
  status : Nat
  contentType : Option String := none
  contentLength : Option String := none
  contentRange : Option String := none
  acceptRanges : Option String := none
  lastModified : Option String := none
  etag : Option String := none
  deriving Repr, DecidableEq

/-- An HTTP request the server issues to Backblaze while proxying,
with the `Range` header it carries. -/
inductive B2Req where
  /-- GET of the signed `file/<bucket>/<path>?Authorization=` URL. -/
  | signedGet (range : Option String)
  /-- The `b2.listFileNames` API call of the fallback path. -/
  | listFiles (startName : String)
  /-- GET of `b2_download_file_by_id` for this file id. -/
  | directGet (fileId : String) (range : Option String)
  deriving Repr, DecidableEq

/-- The `Range` header carried by a proxied request. -/
def reqRange : B2Req → Option String
  | .signedGet r => r
  | .listFiles _ => none
  | .directGet _ r => r

/-- Environment of one PDF-proxy request: whether `b2.authorize()`
succeeds, the outcome of the signed-URL attempt (`none` models any throw:
authorization, token building, or a non-2xx axios status), the bucket
listing, and the by-id response as a function of the `Range` header sent
(`none` models a throw). -/
structure PdfEnv where
  authOk : Bool
  signedResp : Option B2HttpResp
  files : List B2File
  directResp : Option String → Option B2HttpResp

/-- What the client receives from the PDF proxy. -/
structure PdfOut where
  status : Nat
  contentType : Option String := none
  contentLength : Option String := none
  contentRange : Option String := none
  acceptRanges : Option String := none
  lastModified : Option String := none
  etag : Option String := none
  errMsg : Option String := none
  deriving Repr, DecidableEq

/-- `GET /api/books/:id/pdf`: returns the trace of requests issued to
Backblaze and the response sent to the client. On the signed-URL path the
request carries no `Range` and the response is a 200 with
`Content-Type: application/pdf` plus length/modified/etag pass-through; on
the fallback path the request carries the client's `Range` and the
response mirrors status, `Content-Range` and `Accept-Ranges`. -/
def pdfEndpoint (books : List BookRec) (id : String)
    (clientRange : Option String) (hasB2 : Bool) (env : PdfEnv) :
    List B2Req × PdfOut :=
  match books.find? (fun b => b.id == id) with
  | none => ([], { status := 404, errMsg := some "Book not found" })
  | some book =>
    let fn := jsOrOpt book.b2FileName book.fileName
    if !jsTruthy fn then ([], { status := 400, errMsg := some "Book file not found" })
    else if !hasB2 then
      ([], { status := 500, errMsg := some "Backblaze B2 is not configured" })
    else
      let fileName := jsOr fn ""
      match (if env.authOk then env.signedResp else none) with
      | some r =>
        ([.signedGet none],
          { status := 200
            contentType := some "application/pdf"
            contentLength := r.contentLength
            lastModified := r.lastModified
            etag := r.etag })
      | none =>
        if !env.authOk then
          ([], { status := 500, errMsg := some "Failed to stream PDF" })
        else
          match env.files.find? (fun f => f.fileName == fileName) with
          | none => ([.listFiles fileName],
              { status := 404, errMsg := some "File not found in Backblaze" })
          | some f =>
            match env.directResp clientRange with
            | none => ([.listFiles fileName, .directGet f.fileId clientRange],
                { status := 500, errMsg := some "Failed to stream PDF" })
            | some r =>
              ([.listFiles fileName, .directGet f.fileId clientRange],
                { status := r.status
                  contentType := r.contentType
                  contentLength := r.contentLength
                  contentRange := r.contentRange
                  acceptRanges := r.acceptRanges
                  lastModified := r.lastModified
                  etag := r.etag })

/-! ## The cover proxy: `GET /api/books/:id/cover` -/

/-- Response of the cover endpoint. -/
inductive CoverResp where
  /-- 404 `Book not found`. -/
  | bookNotFound
  /-- `res.redirect(url)`. -/
  | redirect (url : String)
  /-- The named B2 object streamed through the server (signed URL,
  `Cache-Control: public, max-age=86400`). -/
  | streamB2 (fileName : String)
  /-- 404 `Cover image not found`. -/
  | coverNotFound
  /-- 500 `Failed to serve cover image` (B2 authorization or fetch threw). -/
  | serverErr
  deriving Repr, DecidableEq

/-- `GET /api/books/:id/cover`, translated from the source: redirect when
`cloudinaryCoverUrl || coverImage` is a truthy http(s) URL; else stream
`b2CoverFileName || coverImage` from B2 when `b2CoverFileName` is truthy or
`coverImage` is truthy and does not start with `/`; else redirect a
`/uploads` path; else 404. `authOk` and `fetchOk` say whether the B2
authorization and the streaming fetch succeed. -/
def coverEndpoint (books : List BookRec) (id : String)
    (authOk fetchOk : Bool) : CoverResp :=
  match books.find? (fun b => b.id == id) with
  | none => .bookNotFound
  | some book =>
    let coverImageUrl := jsOrOpt book.cloudinaryCoverUrl book.coverImage
    if jsTruthy coverImageUrl &&
        (strStartsWith (jsOr coverImageUrl "") "http://" ||
         strStartsWith (jsOr coverImageUrl "") "https://") then
      .redirect (jsOr coverImageUrl "")
    else if jsTruthy book.b2CoverFileName ||
        (jsTruthy book.coverImage && !strStartsWith (jsOr book.coverImage "") "/") then
      if authOk && fetchOk then
        .streamB2 (jsOr (jsOrOpt book.b2CoverFileName book.coverImage) "")
      else .serverErr
    else if jsTruthy book.coverImage && strStartsWith (jsOr book.coverImage "") "/uploads" then
      .redirect (jsOr book.coverImage "")
    else .coverNotFound

/-- The cover fallback chain exactly as the specification words it: an
http(s) stored cover is redirected to; otherwise a stored bare Backblaze
file name is streamed from B2 through the server; otherwise a local
`/uploads` path is redirected to; otherwise 404. Stated over the book's
effective stored cover (`cloudinaryCoverUrl` falling back to `coverImage`,
with `b2CoverFileName` as the explicit bare name). -/
def coverChainSpec (book : BookRec) : CoverResp :=
  let stored := jsOrOpt book.cloudinaryCoverUrl book.coverImage
  if jsTruthy stored &&
      (strStartsWith (jsOr stored "") "http://" || strStartsWith (jsOr stored "") "https://") then
    .redirect (jsOr stored "")
  else if jsTruthy book.b2CoverFileName ||
      (jsTruthy book.coverImage && !strStartsWith (jsOr book.coverImage "") "/") then
    .streamB2 (jsOr (jsOrOpt book.b2CoverFileName book.coverImage) "")
  else if jsTruthy book.coverImage && strStartsWith (jsOr book.coverImage "") "/uploads" then
    .redirect (jsOr book.coverImage "")
  else .coverNotFound

/-! ## Persistence effects of `saveBooks` / `saveBlogs` and static serving -/

/-- A storage side effect of a save helper. -/
inductive StorageEffect where
  /-- `fs.writeFile` of a file next to the server. -/
  | localWrite (path : String)
  /-- `fs.readFile` of a local file. -/
  | localRead (path : String)
  /-- `b2.uploadFile` of this object name. -/
  | b2Upload (fileName : String)
  deriving Repr, DecidableEq

/-- The storage effects `saveBooks` performs, in order: write the local
`books.json`, mirror it to B2 as `data/books.json` when credentials are
configured, then re-read the local file to verify the write. -/
def saveBooks (hasB2 : Bool) : List StorageEffect :=
  [.localWrite "books.json"] ++
    (if hasB2 then [.b2Upload "data/books.json"] else []) ++
    [.localRead "books.json"]

/-- The storage effects `saveBlogs` performs: one local write of
`blogs.json`. -/
def saveBlogs : List StorageEffect :=
  [StorageEffect.localWrite "blogs.json"]

/-- The `express.static` mounts of the app: the `/uploads` URL prefix is
served from the local `uploads` directory. -/
def staticMounts : List (String × String) :=
  [("/uploads", "uploads")]

/-! ## What the server writes to B2 -/

/-- One `b2.uploadFile` call: the object name and the MIME type sent. -/
structure B2UploadOp where
  fileName : String
  mime : String
  deriving Repr, DecidableEq

/-- `uploadPdfToB2(fileBuffer, fileName, mimeType)`: the MIME sent is
`mimeType || 'application/pdf'`. -/
def uploadPdfOp (fileName : String) (mimeType : Option String) : B2UploadOp :=
  { fileName := fileName, mime := jsOr mimeType "application/pdf" }

/-- `uploadBooksJsonToB2`: the book metadata array is written to B2 as
`data/books.json` with MIME `application/json`. -/
def booksJsonUploadOp : B2UploadOp :=
  { fileName := "data/books.json", mime := "application/json" }

/-! ## Admin authentication (`verifyAdminPassword`) and the admin routes -/

/-- The password material of an incoming admin request: the
`x-admin-password` header and the `adminPassword` body field. -/
structure AdminReq where
  headerPassword : Option String
  bodyPassword : Option String
  deriving Repr, DecidableEq

/-- Result of the middleware: reject with a 401 message, or fall through to
the route handler. -/
inductive AuthResult where
  | unauthorized (msg : String)
  | authorized
  deriving Repr, DecidableEq

/-- `verifyAdminPassword`: the password is
`req.headers['x-admin-password'] || req.body.adminPassword`; a falsy
password yields 401 `Admin password required`, a wrong one 401
`Invalid admin password`, otherwise `next()` runs the handler. -/
def verifyAdminPassword (adminPassword : String) (req : AdminReq) : AuthResult :=
  match jsOrOpt req.headerPassword req.bodyPassword with
  | none => .unauthorized "Admin password required"
  | some s =>
    if s.isEmpty then .unauthorized "Admin password required"
    else if s ≠ adminPassword then .unauthorized "Invalid admin password"
    else .authorized

/-- A stored blog record (the fields `POST /api/admin/blogs` creates). -/
structure BlogRec where
  id : String
  title : String
  excerpt : String
  description : String
  category : String
  image : String
  date : String
  deriving Repr, DecidableEq

/-- The server's persistent store: the books and blogs JSON arrays. -/
structure Store where
  books : List BookRec
  blogs : List BlogRec
  deriving Repr, DecidableEq

/-- A JSON response of an admin route. -/
structure Resp where
  status : Nat
  error : Option String := none
  deriving Repr, DecidableEq

/-- An admin route: the `verifyAdminPassword` middleware runs first and a
failure responds 401 without ever invoking the route handler, so the store
is returned unchanged. -/
def runAdminRoute (adminPassword : String) (req : AdminReq) (store : Store)
    (handler : Store → Resp × Store) : Resp × Store :=
  match verifyAdminPassword adminPassword req with
  | .unauthorized msg => ({ status := 401, error := some msg }, store)
  | .authorized => handler store

/-! ## Multer upload limits -/

/-- `limits.fileSize` of the shared `upload` middleware: 50 MB. -/
def FILE_SIZE_LIMIT : Nat := 50 * 1024 * 1024

/-- `storage: multer.memoryStorage()` — files are buffered in memory. -/
def multerStorageKind : String := "memory"

/-- One file of a multipart upload. -/
structure UploadFile where
  fieldname : String
  originalname : String
  size : Nat
  deriving Repr, DecidableEq

/-- The multer middleware: any individual file larger than
`FILE_SIZE_LIMIT` aborts the request with a `LIMIT_FILE_SIZE` error before
the route handler runs. -/
def multerProcess (files : List UploadFile) : Except String (List UploadFile) :=
  if files.any (fun f => f.size > FILE_SIZE_LIMIT) then .error "LIMIT_FILE_SIZE"
  else .ok files

/-- An admin upload route (books or blogs): password middleware, then
multer, then the handler. A multer `LIMIT_FILE_SIZE` error propagates to
the Express error handler (status 500) and the handler never runs. -/
def runAdminUpload (adminPassword : String) (req : AdminReq)
    (files : List UploadFile) (store : Store)
    (handler : List UploadFile → Store → Resp × Store) : Resp × Store :=
  match verifyAdminPassword adminPassword req with
  | .unauthorized msg => ({ status := 401, error := some msg }, store)
  | .authorized =>
    match multerProcess files with
    | .error e => ({ status := 500, error := some e }, store)
    | .ok fs => handler fs store

/-! ## Book creation: the PDF fields of `bookData`

`POST /api/admin/books` collects the successfully uploaded parts into
`pdfParts` when `hasParts === 'true' && partsCount`, else uploads the
single `pdf` file; `bookData` then sets
`pdfParts: pdfParts.length > 0 ? pdfParts : null` and
`b2FileName`/`fileName` to `null` or the single upload's name. -/

/-- What happened for field `pdfPart${i}` of the request: `none` when no
file was sent, `some none` when the B2 upload threw (the part is skipped),
`some (some nm)` when it uploaded as `nm`. -/
def PartOutcome := Nat → Option (Option String)

/-- The loop `for (let i = 1; i <= partsCountNum; i++)` pushing
`{ partNumber: i, b2FileName, fileName }` for each successful upload. -/
def collectParts (outcome : PartOutcome) : Nat → List PdfPart
  | 0 => []
  | Nat.succ k =>
    collectParts outcome k ++
      (match outcome (k + 1) with
       | some (some nm) => [{ partNumber := k + 1, b2FileName := some nm, fileName := some nm }]
       | _ => [])

/-- The request data the PDF-field computation depends on. -/
structure NewBookInput where
  /-- `req.body.hasParts` (a form string). -/
  hasParts : Option String
  /-- `parseInt(req.body.partsCount)` when `partsCount` is truthy. -/
  partsCount : Option Nat
  /-- Whether `req.files['pdf'][0]` exists. -/
  pdfProvided : Bool
  /-- The single PDF upload's B2 name, `none` when the upload threw. -/
  singleUploadResult : Option String
  /-- Per-part upload outcomes. -/
  partOutcome : PartOutcome

/-- The three PDF-related fields of the created book record. -/
structure PdfFields where
  pdfParts : Option (List PdfPart)
  b2FileName : Option String
  fileName : Option String
  deriving Repr, DecidableEq

/-- The PDF fields of `bookData` as `POST /api/admin/books` computes them. -/
def buildPdfFields (inp : NewBookInput) : PdfFields :=
  let branch := inp.hasParts == some "true" && inp.partsCount.isSome
  let parts := if branch then collectParts inp.partOutcome (inp.partsCount.getD 0) else []
  let b2Pdf : Option String :=
    if branch then none
    else if inp.pdfProvided then inp.singleUploadResult else none
  { pdfParts := if parts.length > 0 then some parts else none
    b2FileName := if parts.length > 0 then none else b2Pdf
    fileName := if parts.length > 0 then none else b2Pdf }

/-! ## Concrete fixtures used by witnesses and counterexamples -/

/-- A first part record. -/
def pW1 : PdfPart :=
  { partNumber := 1, b2FileName := some "books/b1/parts/p1.pdf",
    fileName := some "books/b1/parts/p1.pdf" }

/-- A second part record. -/
def pW2 : PdfPart :=
  { partNumber := 2, b2FileName := some "books/b1/parts/p2.pdf",
    fileName := some "books/b1/parts/p2.pdf" }

/-- A multi-part book (parts stored out of order). -/
def bkW : BookRec :=
  { id := "b1", title := some "T", pdfParts := some [pW2, pW1],
    b2FileName := none, fileName := none, cloudinaryCoverUrl := none,
    coverImage := none, b2CoverFileName := none }

/-- A B2 environment where only part 1 exists in the bucket. -/
def envW : B2Env :=
  { files := [⟨"books/b1/parts/p1.pdf", "id1"⟩],
    fetch := fun i => if i == "id1" then some [1, 2, 3] else none,
    authOk := true }

/-- A single-file book stored under `b2FileName`. -/
def bkPdf : BookRec :=
  { id := "b2", title := some "T", pdfParts := none,
    b2FileName := some "books/b2/file.pdf", fileName := none,
    cloudinaryCoverUrl := none, coverImage := none, b2CoverFileName := none }

/-- A PDF-proxy environment where the signed-URL attempt succeeds. -/
def signedOkEnv : PdfEnv :=
  { authOk := true
    signedResp := some { status := 200, contentLength := some "1000" }
    files := [⟨"books/b2/file.pdf", "idB"⟩]
    directResp := fun _ => some { status := 206 } }

/-- A PDF-proxy environment where the signed-URL attempt fails and the
by-id fallback answers 206 with range headers. -/
def fallbackEnv : PdfEnv :=
  { authOk := true
    signedResp := none
    files := [⟨"books/b2/file.pdf", "idB"⟩]
    directResp := fun _ =>
      some { status := 206, contentType := some "application/pdf",
             contentRange := some "bytes 0-99/1000",
             acceptRanges := some "bytes" } }

/-- A book whose cover is a bare B2 object name. -/
def bkCover : BookRec :=
  { id := "b3", title := none, pdfParts := none, b2FileName := none,
    fileName := none, cloudinaryCoverUrl := none,
    coverImage := some "covers/b1.jpg", b2CoverFileName := none }

/-- A single-file book with no cached B2 file id yet. -/
def bkNoId : BookRec :=
  { id := "b9", title := some "N", pdfParts := none,
    b2FileName := some "books/b9/x.pdf", fileName := none,
    cloudinaryCoverUrl := none, coverImage := none, b2CoverFileName := none }

/-! # Theorems -/

theorem insertPart_perm (p : PdfPart) (l : List PdfPart) :
    (insertPart p l).Perm (p :: l) := by
  induction l with
  | nil => simp [insertPart]
  | cons q qs ih =>
    rw [insertPart]
    by_cases h : p.partNumber ≤ q.partNumber
    · simp [h]
    · rw [if_neg h]
      exact (ih.cons q).trans (List.Perm.swap p q qs)

theorem sortParts_perm (l : List PdfPart) : (sortParts l).Perm l := by
  induction l with
  | nil => simp [sortParts]
  | cons p ps ih =>
    rw [sortParts]
    exact (insertPart_perm p (sortParts ps)).trans (ih.cons p)

theorem insertPart_ascending (p : PdfPart) (l : List PdfPart)
    (h : PartsAscending l) : PartsAscending (insertPart p l) := by
  induction l with
  | nil => simp [insertPart, PartsAscending]
  | cons q qs ih =>
    rcases List.pairwise_cons.mp h with ⟨hq, hqs⟩
    rw [insertPart]
    by_cases hpq : p.partNumber ≤ q.partNumber
    · rw [if_pos hpq]
      refine List.pairwise_cons.mpr ⟨?_, h⟩
      intro b hb
      rcases List.mem_cons.mp hb with rfl | hb
      · exact hpq
      · exact le_trans hpq (hq b hb)
    · rw [if_neg hpq]
      refine List.pairwise_cons.mpr ⟨?_, ih hqs⟩
      intro b hb
      rcases List.mem_cons.mp ((insertPart_perm p qs).mem_iff.mp hb) with rfl | hb
      · exact Nat.le_of_not_le hpq
      · exact hq b hb

theorem sortParts_ascending (l : List PdfPart) : PartsAscending (sortParts l) := by
  induction l with
  | nil => simp [sortParts, PartsAscending]
  | cons p ps ih => exact insertPart_ascending p (sortParts ps) ih

/-- C1: for a book with a non-empty `pdfParts` list the download endpoint
answers with `Content-Type: application/zip` and assembles the archive on
demand: the parts are taken in ascending `partNumber` order (a sorted
permutation of the stored list), every part whose PDF can be fetched from
B2 contributes exactly one archive entry, and an unfetchable part is
skipped (dropped by the `filterMap`) without failing the download. -/
theorem zip_download_assembly
    (books : List BookRec) (id : String) (hasB2 : Bool) (env : B2Env)
    (book : BookRec) (parts : List PdfPart)
    (hfind : books.find? (fun b => b.id == id) = some book)
    (hparts : book.pdfParts = some parts) (hne : parts ≠ [])
    (hauth : hasB2 = true → env.authOk = true) :
    downloadEndpoint books id hasB2 env =
      .zipOk (zipEntriesFor env hasB2 book.title parts) ∧
    downloadContentType (downloadEndpoint books id hasB2 env) =
      some "application/zip" ∧
    zipEntriesFor env hasB2 book.title parts =
      (sortParts parts).filterMap
        (fun p => (resolvePart env hasB2 p).map
          (fun d => ZipEntry.mk (partEntryName book.title p) d)) ∧
    PartsAscending (sortParts parts) ∧ (sortParts parts).Perm parts := by
  have hempty : parts.isEmpty = false := by
    cases parts with
    | nil => exact absurd rfl hne
    | cons a l => rfl
  have hcond : (hasB2 && !env.authOk) = false := by
    cases hasB2 with
    | false => rfl
    | true => rw [hauth rfl]; rfl
  have hmain : downloadEndpoint books id hasB2 env =
      .zipOk (zipEntriesFor env hasB2 book.title parts) := by
    simp only [downloadEndpoint, hfind, hparts, hempty, hcond,
      Bool.not_false, if_true, if_false]
    rfl
  refine ⟨hmain, ?_, ?_, sortParts_ascending parts, sortParts_perm parts⟩
  · rw [hmain]; rfl
  · simp only [zipEntriesFor]
    apply List.filterMap_congr
    intro p _
    cases resolvePart env hasB2 p <;> rfl

/-- Witness for C1 on a concrete two-part book whose second part is missing
from the bucket. -/
theorem zip_download_assembly_witness :
    downloadEndpoint [bkW] "b1" true envW =
      .zipOk (zipEntriesFor envW true bkW.title [pW2, pW1]) ∧
    downloadContentType (downloadEndpoint [bkW] "b1" true envW) =
      some "application/zip" ∧
    zipEntriesFor envW true bkW.title [pW2, pW1] =
      (sortParts [pW2, pW1]).filterMap
        (fun p => (resolvePart envW true p).map
          (fun d => ZipEntry.mk (partEntryName bkW.title p) d)) ∧
    PartsAscending (sortParts [pW2, pW1]) ∧ (sortParts [pW2, pW1]).Perm [pW2, pW1] :=
  zip_download_assembly [bkW] "b1" true envW bkW [pW2, pW1]
    (by rfl) (by rfl) (by simp [pW1, pW2]) (fun _ => rfl)

theorem listContainsSub_iff (s t : List Char) :
    listContainsSub s t = true ↔ t <:+: s := by
  induction s with
  | nil =>
    simp only [listContainsSub, List.infix_nil, List.isEmpty_iff]
  | cons c rest ih =>
    simp only [listContainsSub]
    rw [Bool.or_eq_true, List.isPrefixOf_iff_prefix, ih, List.infix_cons_iff]

theorem strIncludes_iff (s t : String) :
    strIncludes s t = true ↔ t.toList <:+: s.toList := by
  rw [strIncludes, listContainsSub_iff]

theorem find?_first {α : Type} (p : α → Bool) (l : List α) (a : α)
    (h : l.find? p = some a) :
    ∃ pre post, l = pre ++ a :: post ∧ ∀ g ∈ pre, p g = false := by
  induction l with
  | nil => simp [List.find?] at h
  | cons x xs ih =>
    by_cases hx : p x
    · rw [List.find?_cons_of_pos _ hx] at h
      cases h
      exact ⟨[], xs, rfl, by simp⟩
    · rw [List.find?_cons_of_neg _ hx] at h
      obtain ⟨pre, post, hsplit, hpre⟩ := ih h
      refine ⟨x :: pre, post, by rw [hsplit]; rfl, ?_⟩
      intro g hg
      rcases List.mem_cons.mp hg with rfl | hg
      · exact Bool.eq_false_iff.mpr hx
      · exact hpre g hg

/-- C5: a stored part name is matched against the bucket listing by exact
or fuzzy name. The selected file is the first listed one whose name equals
the stored name, contains it as a substring, or is a substring of it; the
part is treated as missing exactly when no listed file satisfies any of
the three. -/
theorem part_fuzzy_match_first (stored : String) (files : List B2File) :
    (∀ f, findB2File stored files = some f →
        fuzzyNameMatch stored f = true ∧
        ∃ pre post, files = pre ++ f :: post ∧
          ∀ g ∈ pre, fuzzyNameMatch stored g = false) ∧
    (findB2File stored files = none ↔
        ∀ g ∈ files, fuzzyNameMatch stored g = false) ∧
    (∀ f : B2File, fuzzyNameMatch stored f = true ↔
        (f.fileName = stored ∨ stored.toList <:+: f.fileName.toList ∨
         f.fileName.toList <:+: stored.toList)) := by
  refine ⟨?_, ?_, ?_⟩
  · intro f hf
    exact ⟨List.find?_some hf, find?_first _ _ _ hf⟩
  · rw [findB2File, List.find?_eq_none]
    constructor <;> intro h g hg
    · exact Bool.eq_false_iff.mpr (h g hg)
    · simp [h g hg]
  · intro f
    rw [fuzzyNameMatch]
    simp only [Bool.or_eq_true, beq_iff_eq, strIncludes_iff, or_assoc]

/-- Witness for C5: among two listed files the fuzzy matcher picks the
first (and only) one whose name contains the stored part name. -/
theorem part_fuzzy_match_first_witness :
    fuzzyNameMatch "p1.pdf" (B2File.mk "books/b1/parts/p1.pdf" "id1") = true ∧
    ∃ pre post,
      ([⟨"cover.jpg", "id0"⟩, ⟨"books/b1/parts/p1.pdf", "id1"⟩] : List B2File) =
        pre ++ B2File.mk "books/b1/parts/p1.pdf" "id1" :: post ∧
      ∀ g ∈ pre, fuzzyNameMatch "p1.pdf" g = false :=
  (part_fuzzy_match_first "p1.pdf"
      [⟨"cover.jpg", "id0"⟩, ⟨"books/b1/parts/p1.pdf", "id1"⟩]).1
    ⟨"books/b1/parts/p1.pdf", "id1"⟩ (by decide)

/-- In the current `server/index.js` download fallback, the authorization
is the only cached state: a lookup in the authorized state performs no
`authorize` call, a lookup from the unauthorized state performs exactly
one successful `authorize` and caches the flag, and every lookup issues a
fresh `listFiles` call (file ids are rediscovered each time there). -/
theorem indexJs_auth_cached_every_lookup_lists
    (authSucceeds : Bool) (files : List B2File) (fileName : String) :
    resolveFileByName authSucceeds files fileName true =
      ([B2Op.listFiles fileName], true,
        files.find? (fun f => f.fileName == fileName)) ∧
    (authSucceeds = true →
      resolveFileByName authSucceeds files fileName false =
        ([B2Op.authorize, B2Op.listFiles fileName], true,
          files.find? (fun f => f.fileName == fileName))) ∧
    (∀ st : Bool, B2Op.listFiles fileName ∈
        (resolveFileByName true files fileName st).1) := by
  refine ⟨?_, ?_, ?_⟩
  · simp [resolveFileByName, ensureB2Authorized]
  · intro h
    subst h
    simp [resolveFileByName, ensureB2Authorized]
  · intro st
    cases st <;> simp [resolveFileByName, ensureB2Authorized]

theorem jsFindIndex_getD {α : Type} (p : α → Bool) (l : List α) (ix : Nat)
    (d : α) (h : jsFindIndex p l = some ix) : p (l.getD ix d) = true := by
  induction l generalizing ix with
  | nil => simp [jsFindIndex] at h
  | cons a t ih =>
    rw [jsFindIndex] at h
    by_cases pa : p a
    · rw [if_pos pa] at h
      cases h
      simpa [List.getD]
    · rw [if_neg pa] at h
      obtain ⟨j, hj, hix2⟩ := Option.map_eq_some'.mp h
      subst hix2
      simpa [List.getD] using ih j hj

theorem set_after_findIndex {α : Type} (p : α → Bool) (l : List α) (ix : Nat)
    (u : α) (h : jsFindIndex p l = some ix) (hu : p u = true) :
    (l.set ix u).find? p = some u := by
  induction l generalizing ix with
  | nil => simp [jsFindIndex] at h
  | cons a t ih =>
    rw [jsFindIndex] at h
    by_cases pa : p a
    · rw [if_pos pa] at h
      cases h
      simp [List.set, List.find?_cons_of_pos _ hu]
    · rw [if_neg pa] at h
      obtain ⟨j, hj, hix2⟩ := Option.map_eq_some'.mp h
      subst hix2
      simp only [List.set]
      rw [List.find?_cons_of_neg _ pa]
      exact ih j hj

theorem cacheUpdate_id (b : BookRec) (f : B2File) (fileName : String) :
    (cacheUpdate b f fileName).id = b.id := by
  rw [cacheUpdate]
  split <;> rfl

theorem cacheUpdate_b2FileId (b : BookRec) (f : B2File) (fileName : String) :
    (cacheUpdate b f fileName).b2FileId = some f.fileId := by
  rw [cacheUpdate]
  split <;> rfl

/-- C2: the cached-file-id PDF lookup (the repository's second server
implementation). A book with no cached id is located by one bucket listing
and the staged exact/fuzzy matcher (exact name first); the discovered file
id is written back onto the stored book record and persisted with
`saveBooks`; and a later lookup for the same book finds the cached id and
issues no listing call at all, resolving to the same id. -/
theorem pdf_cached_fileId_lookup
    (books : List BookRec) (id : String) (book : BookRec)
    (fileName : String) (allFiles : List B2File) (f : B2File) (ix : Nat)
    (hid : jsTruthy book.b2FileId = false)
    (hmatch : findPdfFileStaged fileName allFiles = some f)
    (hix : jsFindIndex (fun b => b.id == id) books = some ix)
    (hfid : f.fileId ≠ "") :
    (lookupPdfWithCache books id book fileName allFiles).ops =
      [B2Op.listFiles ""] ∧
    (lookupPdfWithCache books id book fileName allFiles).fileId =
      some f.fileId ∧
    (lookupPdfWithCache books id book fileName allFiles).savedBooks = true ∧
    (∃ u, (lookupPdfWithCache books id book fileName allFiles).books.find?
          (fun b => b.id == id) = some u ∧
        u.b2FileId = some f.fileId ∧
        (lookupPdfWithCache
            (lookupPdfWithCache books id book fileName allFiles).books
            id u fileName allFiles).ops = [] ∧
        (lookupPdfWithCache
            (lookupPdfWithCache books id book fileName allFiles).books
            id u fileName allFiles).fileId = some f.fileId) ∧
    (∀ g, allFiles.find? (fun x => x.fileName == fileName) = some g →
      findPdfFileStaged fileName allFiles = some g) := by
  have hnottruthy : ¬ jsTruthy book.b2FileId = true := by rw [hid]; decide
  have hbase : lookupPdfWithCache books id book fileName allFiles =
      { ops := [B2Op.listFiles ""]
        books := books.set ix (cacheUpdate (books.getD ix book) f fileName)
        savedBooks := true
        fileId := some f.fileId } := by
    rw [lookupPdfWithCache, if_neg hnottruthy, hmatch, hix]
  have hu_id : ((cacheUpdate (books.getD ix book) f fileName).id == id) = true := by
    rw [cacheUpdate_id]
    exact jsFindIndex_getD _ _ _ book hix
  have hne : f.fileId.isEmpty = false := by
    cases he : f.fileId.isEmpty with
    | false => rfl
    | true => exact absurd ((String.isEmpty_iff f.fileId).mp he) hfid
  have hufid : jsTruthy (cacheUpdate (books.getD ix book) f fileName).b2FileId = true := by
    rw [cacheUpdate_b2FileId]
    simp [jsTruthy, hne]
  have hfind : (books.set ix (cacheUpdate (books.getD ix book) f fileName)).find?
      (fun b => b.id == id) = some (cacheUpdate (books.getD ix book) f fileName) :=
    set_after_findIndex _ _ _ _ hix hu_id
  refine ⟨by rw [hbase], by rw [hbase], by rw [hbase], ?_, ?_⟩
  · refine ⟨cacheUpdate (books.getD ix book) f fileName, ?_, ?_, ?_, ?_⟩
    · rw [hbase]
      exact hfind
    · exact cacheUpdate_b2FileId _ _ _
    · rw [lookupPdfWithCache, if_pos hufid]
    · rw [lookupPdfWithCache, if_pos hufid]
      exact cacheUpdate_b2FileId _ _ _
  · intro g hg
    rw [findPdfFileStaged, hg]

/-- Witness for C2: a concrete first lookup of `books/b9/x.pdf` lists the
bucket once and caches id `id9`; the subsequent lookup on the updated book
record lists nothing and resolves to the cached id. -/
theorem pdf_cached_fileId_lookup_witness :
    (lookupPdfWithCache [bkNoId] "b9" bkNoId "books/b9/x.pdf"
        [⟨"books/b9/x.pdf", "id9"⟩]).ops = [B2Op.listFiles ""] ∧
    (lookupPdfWithCache [bkNoId] "b9" bkNoId "books/b9/x.pdf"
        [⟨"books/b9/x.pdf", "id9"⟩]).fileId = some "id9" ∧
    (lookupPdfWithCache [bkNoId] "b9" bkNoId "books/b9/x.pdf"
        [⟨"books/b9/x.pdf", "id9"⟩]).savedBooks = true ∧
    (lookupPdfWithCache
        (lookupPdfWithCache [bkNoId] "b9" bkNoId "books/b9/x.pdf"
          [⟨"books/b9/x.pdf", "id9"⟩]).books
        "b9" { bkNoId with b2FileId := some "id9" } "books/b9/x.pdf"
        [⟨"books/b9/x.pdf", "id9"⟩]).ops = [] := by
  have h := pdf_cached_fileId_lookup [bkNoId] "b9" bkNoId "books/b9/x.pdf"
    [⟨"books/b9/x.pdf", "id9"⟩] ⟨"books/b9/x.pdf", "id9"⟩ 0
    rfl rfl rfl (by decide)
  exact ⟨h.1, h.2.1, h.2.2.1, rfl⟩

/-- C3 counterexample: on the primary signed-URL path the client's `Range`
header is not forwarded. With a request carrying `Range: bytes=0-99` and a
signed-URL attempt that succeeds, the only request issued to Backblaze
carries no `Range` at all and the client response carries no
`Content-Range`, refuting the claim that the upstream request always
carries the client's `Range`. -/
theorem pdf_range_counterexample :
    (pdfEndpoint [bkPdf] "b2" (some "bytes=0-99") true signedOkEnv).1 =
      [B2Req.signedGet none] ∧
    (¬ ∃ r ∈ (pdfEndpoint [bkPdf] "b2" (some "bytes=0-99") true signedOkEnv).1,
        reqRange r = some "bytes=0-99") ∧
    (pdfEndpoint [bkPdf] "b2" (some "bytes=0-99") true signedOkEnv).2.contentRange =
      none ∧
    (pdfEndpoint [bkPdf] "b2" (some "bytes=0-99") true signedOkEnv).2.status = 200 := by
  refine ⟨rfl, ?_, rfl, rfl⟩
  rw [show (pdfEndpoint [bkPdf] "b2" (some "bytes=0-99") true signedOkEnv).1 =
      [B2Req.signedGet none] from rfl]
  rintro ⟨r, hr, hrange⟩
  rw [List.mem_singleton.mp hr] at hrange
  exact Option.noConfusion hrange

/-- C3 amended: byte-range proxying happens on the fallback path only.
When the signed-URL attempt fails, the file is found by exact name and the
by-id request succeeds, that request carries the client's `Range` and the
client response mirrors Backblaze's status, `Content-Range` and
`Accept-Ranges` (plus type/length/modified/etag); on the primary
signed-URL path the request issued to Backblaze never carries a `Range`. -/
theorem pdf_range_fallback_proxy
    (books : List BookRec) (id : String) (clientRange : Option String)
    (env : PdfEnv) (book : BookRec) (f : B2File) (r : B2HttpResp)
    (hfind : books.find? (fun b => b.id == id) = some book)
    (hfn : jsTruthy (jsOrOpt book.b2FileName book.fileName) = true)
    (hauth : env.authOk = true)
    (hsig : env.signedResp = none)
    (hfile : env.files.find?
        (fun g => g.fileName == jsOr (jsOrOpt book.b2FileName book.fileName) "") =
      some f)
    (hdir : env.directResp clientRange = some r) :
    pdfEndpoint books id clientRange true env =
      ([B2Req.listFiles (jsOr (jsOrOpt book.b2FileName book.fileName) ""),
        B2Req.directGet f.fileId clientRange],
       { status := r.status, contentType := r.contentType,
         contentLength := r.contentLength, contentRange := r.contentRange,
         acceptRanges := r.acceptRanges, lastModified := r.lastModified,
         etag := r.etag }) ∧
    (∀ env2 : PdfEnv, ∀ rr, env2.authOk = true → env2.signedResp = some rr →
      (pdfEndpoint books id clientRange true env2).1 = [B2Req.signedGet none]) := by
  constructor
  · simp only [pdfEndpoint, hfind, hfn, hauth, hsig, hfile, hdir, Bool.not_true,
      Bool.not_false, if_true, if_false, Bool.false_eq_true, ite_true, ite_false]
  · intro env2 rr hauth2 hsig2
    simp only [pdfEndpoint, hfind, hfn, hauth2, hsig2, Bool.not_true,
      Bool.not_false, if_true, if_false, ite_true, ite_false]
    rfl

/-- Witness for the amended C3: a concrete ranged request on the fallback
path, where the by-id request carries `bytes=0-99` and the 206 response
with its range headers is mirrored. -/
theorem pdf_range_fallback_proxy_witness :
    pdfEndpoint [bkPdf] "b2" (some "bytes=0-99") true fallbackEnv =
      ([B2Req.listFiles "books/b2/file.pdf",
        B2Req.directGet "idB" (some "bytes=0-99")],
       { status := 206, contentType := some "application/pdf",
         contentRange := some "bytes 0-99/1000",
         acceptRanges := some "bytes" }) :=
  (pdf_range_fallback_proxy [bkPdf] "b2" (some "bytes=0-99") fallbackEnv bkPdf
      ⟨"books/b2/file.pdf", "idB"⟩
      { status := 206, contentType := some "application/pdf",
        contentRange := some "bytes 0-99/1000", acceptRanges := some "bytes" }
      rfl rfl rfl rfl rfl rfl).1

/-- C4: when the B2 authorization and fetch succeed, the cover endpoint
implements exactly the specification's fallback chain: redirect an http(s)
stored cover, else stream a stored bare Backblaze name from B2 through the
server, else redirect a local `/uploads` path, else 404. -/
theorem cover_fallback_chain
    (books : List BookRec) (id : String) (authOk fetchOk : Bool)
    (book : BookRec)
    (hfind : books.find? (fun b => b.id == id) = some book)
    (hauth : authOk = true) (hfetch : fetchOk = true) :
    coverEndpoint books id authOk fetchOk = coverChainSpec book := by
  subst hauth hfetch
  simp only [coverEndpoint, hfind, coverChainSpec, Bool.and_self, if_true]

/-- Witness for C4: a book storing a bare B2 cover name is streamed from
B2, per the chain's second step. -/
theorem cover_fallback_chain_witness :
    coverEndpoint [bkCover] "b3" true true = coverChainSpec bkCover ∧
    coverChainSpec bkCover = .streamB2 "covers/b1.jpg" :=
  ⟨cover_fallback_chain [bkCover] "b3" true true bkCover rfl rfl rfl, rfl⟩

/-- C6 counterexample: persistence is not delegated entirely to
third-party services. `saveBooks` always performs a local
`fs.writeFile` of `books.json`, `saveBlogs` persists blogs only by a local
write of `blogs.json`, and the app serves the local `uploads` directory at
`/uploads`. -/
theorem no_local_storage_counterexample :
    StorageEffect.localWrite "books.json" ∈ saveBooks true ∧
    StorageEffect.localWrite "books.json" ∈ saveBooks false ∧
    saveBlogs = [StorageEffect.localWrite "blogs.json"] ∧
    staticMounts ≠ [] := by
  refine ⟨?_, ?_, rfl, ?_⟩ <;> simp [saveBooks, saveBlogs, staticMounts]

/-- C6 amended: PDF binaries go to B2 and images to Cloudinary, but book
and blog metadata writes always include a local JSON write: `saveBooks`
writes the local `books.json` (mirroring it to B2 as `data/books.json`
exactly when B2 credentials are configured) and re-reads it; `saveBlogs`
persists only to the local `blogs.json`; and the legacy `/uploads` folder
is served from the server's local disk. -/
theorem local_json_persistence (hasB2 : Bool) :
    StorageEffect.localWrite "books.json" ∈ saveBooks hasB2 ∧
    (StorageEffect.b2Upload "data/books.json" ∈ saveBooks hasB2 ↔ hasB2 = true) ∧
    saveBooks hasB2 =
      [StorageEffect.localWrite "books.json"] ++
        (if hasB2 then [StorageEffect.b2Upload "data/books.json"] else []) ++
        [StorageEffect.localRead "books.json"] ∧
    saveBlogs = [StorageEffect.localWrite "blogs.json"] ∧
    staticMounts = [("/uploads", "uploads")] := by
  cases hasB2 <;> simp [saveBooks, saveBlogs, staticMounts]

/-- C7 counterexample: not everything the server writes to B2 is a PDF:
`uploadBooksJsonToB2` writes the metadata object `data/books.json` with
MIME `application/json`. -/
theorem b2_pdf_only_counterexample :
    booksJsonUploadOp.fileName = "data/books.json" ∧
    booksJsonUploadOp.mime = "application/json" ∧
    booksJsonUploadOp.mime ≠ "application/pdf" := by
  refine ⟨rfl, rfl, ?_⟩
  intro h
  exact absurd h (by decide)

/-- C7 amended: PDFs uploaded through `uploadPdfToB2` are sent with MIME
`mimeType || 'application/pdf'`, but B2 also holds the server's book
metadata — `data/books.json` written as `application/json` — and the cover
proxy streams image objects from B2 (here `covers/b1.jpg`). -/
theorem b2_store_contents (fileName : String) :
    (uploadPdfOp fileName none).mime = "application/pdf" ∧
    (uploadPdfOp fileName none).fileName = fileName ∧
    booksJsonUploadOp =
      { fileName := "data/books.json", mime := "application/json" } ∧
    coverEndpoint [bkCover] "b3" true true = CoverResp.streamB2 "covers/b1.jpg" :=
  ⟨rfl, rfl, rfl, rfl⟩

/-- C8: every admin route runs `verifyAdminPassword` before its handler,
for any handler. A request whose `x-admin-password` header and
`adminPassword` body field are both falsy gets 401
`Admin password required`; a request whose password is present but differs
from the configured one gets 401 `Invalid admin password`; in both cases
the handler never runs and the stored books and blogs are unchanged. -/
theorem admin_password_gate
    (adminPassword : String) (req : AdminReq) (store : Store)
    (handler : Store → Resp × Store) :
    (jsTruthy (jsOrOpt req.headerPassword req.bodyPassword) = false →
      runAdminRoute adminPassword req store handler =
        ({ status := 401, error := some "Admin password required" }, store)) ∧
    (∀ s, jsOrOpt req.headerPassword req.bodyPassword = some s →
      s.isEmpty = false → s ≠ adminPassword →
      runAdminRoute adminPassword req store handler =
        ({ status := 401, error := some "Invalid admin password" }, store)) := by
  constructor
  · intro h
    cases hpw : jsOrOpt req.headerPassword req.bodyPassword with
    | none => simp [runAdminRoute, verifyAdminPassword, hpw]
    | some s =>
      rw [hpw, jsTruthy] at h
      have hempty : s.isEmpty = true := by
        cases he : s.isEmpty with
        | true => rfl
        | false => rw [he] at h; exact absurd h (by decide)
      simp [runAdminRoute, verifyAdminPassword, hpw, hempty]
  · intro s hpw hempty hne
    simp [runAdminRoute, verifyAdminPassword, hpw, hempty, hne]

/-- Witness for C8: with the default password configured, a passwordless
request and a wrong-password request are both rejected with the respective
401 message and leave a concrete store untouched. -/
theorem admin_password_gate_witness :
    runAdminRoute "admin123" ⟨none, none⟩ ⟨[bkW], []⟩
        (fun s => ({ status := 201 }, { s with books := [] })) =
      ({ status := 401, error := some "Admin password required" }, ⟨[bkW], []⟩) ∧
    runAdminRoute "admin123" ⟨some "wrong", none⟩ ⟨[bkW], []⟩
        (fun s => ({ status := 201 }, { s with books := [] })) =
      ({ status := 401, error := some "Invalid admin password" }, ⟨[bkW], []⟩) :=
  ⟨(admin_password_gate "admin123" ⟨none, none⟩ ⟨[bkW], []⟩ _).1 rfl,
   (admin_password_gate "admin123" ⟨some "wrong", none⟩ ⟨[bkW], []⟩ _).2
     "wrong" rfl rfl (by decide)⟩

/-- C9: the shared multer middleware buffers files in memory with a
per-file limit of 50 MB = 50*1024*1024 bytes; any admin upload request
containing a file above the limit is rejected before its handler runs (401
from the password gate or 500 `LIMIT_FILE_SIZE` from multer), and the
store — books and blogs alike — is returned unchanged. -/
theorem upload_size_limit
    (adminPassword : String) (req : AdminReq) (files : List UploadFile)
    (store : Store) (handler : List UploadFile → Store → Resp × Store)
    (hbig : ∃ f ∈ files, f.size > FILE_SIZE_LIMIT) :
    (runAdminUpload adminPassword req files store handler).2 = store ∧
    ((runAdminUpload adminPassword req files store handler).1.status = 401 ∨
      (runAdminUpload adminPassword req files store handler).1 =
        { status := 500, error := some "LIMIT_FILE_SIZE" }) ∧
    FILE_SIZE_LIMIT = 50 * 1024 * 1024 ∧
    multerStorageKind = "memory" := by
  have hany : (files.any fun f => decide (f.size > FILE_SIZE_LIMIT)) = true := by
    obtain ⟨f, hf, hsize⟩ := hbig
    exact List.any_eq_true.mpr ⟨f, hf, by simpa using hsize⟩
  refine ⟨?_, ?_, rfl, rfl⟩ <;>
    · rw [runAdminUpload]
      cases hv : verifyAdminPassword adminPassword req with
      | unauthorized msg => simp
      | authorized => simp [multerProcess, hany]

/-- Witness for C9: a 52428801-byte PDF (one byte over the limit) with the
correct password is rejected with 500 `LIMIT_FILE_SIZE` and a concrete
store survives unchanged. -/
theorem upload_size_limit_witness :
    (runAdminUpload "admin123" ⟨some "admin123", none⟩
        [⟨"pdf", "big.pdf", 52428801⟩] ⟨[bkW], []⟩
        (fun _ s => ({ status := 201 }, { s with books := [] }))).2 =
      ⟨[bkW], []⟩ ∧
    ((runAdminUpload "admin123" ⟨some "admin123", none⟩
        [⟨"pdf", "big.pdf", 52428801⟩] ⟨[bkW], []⟩
        (fun _ s => ({ status := 201 }, { s with books := [] }))).1.status = 401 ∨
      (runAdminUpload "admin123" ⟨some "admin123", none⟩
        [⟨"pdf", "big.pdf", 52428801⟩] ⟨[bkW], []⟩
        (fun _ s => ({ status := 201 }, { s with books := [] }))).1 =
        { status := 500, error := some "LIMIT_FILE_SIZE" }) ∧
    FILE_SIZE_LIMIT = 50 * 1024 * 1024 ∧
    multerStorageKind = "memory" :=
  upload_size_limit "admin123" ⟨some "admin123", none⟩
    [⟨"pdf", "big.pdf", 52428801⟩] ⟨[bkW], []⟩
    (fun _ s => ({ status := 201 }, { s with books := [] }))
    ⟨⟨"pdf", "big.pdf", 52428801⟩, by simp, by decide⟩

/-- C10: a created book has at most one PDF representation. Either the
parts branch succeeded for at least one part — `pdfParts` is that
non-empty list and both `b2FileName` and `fileName` are `null` — or
`pdfParts` is `null` and `b2FileName` and `fileName` agree, holding either
`null` or (when a single `pdf` file was provided) the single upload's
result. -/
theorem book_single_pdf_representation (inp : NewBookInput) :
    (∃ l, (buildPdfFields inp).pdfParts = some l ∧ l ≠ [] ∧
      (buildPdfFields inp).b2FileName = none ∧
      (buildPdfFields inp).fileName = none) ∨
    ((buildPdfFields inp).pdfParts = none ∧
      (buildPdfFields inp).b2FileName = (buildPdfFields inp).fileName ∧
      ((buildPdfFields inp).b2FileName = none ∨
        (inp.pdfProvided = true ∧
          (buildPdfFields inp).b2FileName = inp.singleUploadResult))) := by
  rw [buildPdfFields]
  set parts :=
    (if inp.hasParts == some "true" && inp.partsCount.isSome then
      collectParts inp.partOutcome (inp.partsCount.getD 0)
    else []) with hpartsdef
  by_cases hp : parts.length > 0
  · left
    exact ⟨parts, by simp [hp], List.length_pos.mp hp, by simp [hp], by simp [hp]⟩
  · right
    refine ⟨by simp [hp], by simp [hp], ?_⟩
    by_cases hb : (inp.hasParts == some "true" && inp.partsCount.isSome) = true
    · left; simp [hp, hb]
    · cases hpv : inp.pdfProvided with
      | false => left; simp [hp, hb, hpv]
      | true => right; exact ⟨rfl, by simp [hp, hb, hpv]⟩

/-- Witness for C10 on a concrete two-part request whose second part
failed to upload: `pdfParts` is the one successful part and the single-PDF
fields are `null`. -/
theorem book_single_pdf_representation_witness :
    buildPdfFields
        { hasParts := some "true", partsCount := some 2, pdfProvided := false,
          singleUploadResult := none,
          partOutcome := fun i =>
            if i = 1 then some (some "books/x/parts/p1.pdf") else some none } =
      { pdfParts := some [⟨1, some "books/x/parts/p1.pdf", some "books/x/parts/p1.pdf"⟩],
        b2FileName := none, fileName := none } := by
  have h := book_single_pdf_representation
    { hasParts := some "true", partsCount := some 2, pdfProvided := false,
      singleUploadResult := none,
      partOutcome := fun i =>
        if i = 1 then some (some "books/x/parts/p1.pdf") else some none }
  exact rfl

end Book1561
